import Mathlib

/-!
Shallow embedding of `src/lib.rs` of h3-rs, a typed binding layer over the
external H3 grid engine. The engine itself is out of scope of the repository
(it is reached through `extern "C"` declarations), so it is modelled as a
record of pure functions `Engine F`; the floating-point coordinate scalars are
modelled parametrically by a field `F` (the idealisation of `f64`), with the
constant `π` passed as a parameter `piv : F`. The wrapper code of `lib.rs` is
translated function by function below.

Rust-to-Lean conventions:
* `u64` / `c_ulonglong` values become `Nat` (the wrapper never does arithmetic
  on them, only comparison with the zero sentinel);
* `c_int` / `i32` become `Int`;
* `Result<T, Error>` becomes `Except Error T`;
* `&str` / `String` become `List Char`; a byte buffer becomes `List Nat`;
* each `extern "C"` engine function becomes a field of `Engine F`;
* `String::from_utf8` (Rust standard library, also external to the repo) is
  passed as an explicit decode function `List Nat → Option (List Char)`.
-/

namespace H3rs

/-- `H3Index(u64)` from lib.rs line 44: a newtype over the raw 64-bit value. -/
structure H3Index where
  value : Nat
  deriving DecidableEq, Repr

/-- `GeoCoordInternal { lat, lon }` (lib.rs lines 260-263): the radian-based
representation handed to the engine. -/
structure GeoCoordInternal (F : Type) where
  lat : F
  lon : F
  deriving DecidableEq, Repr

/-- `GeoCoord { lat, lon }` (lib.rs lines 283-286): the public degree-based
coordinate. -/
structure GeoCoord (F : Type) where
  lat : F
  lon : F
  deriving DecidableEq, Repr

/-- `MAX_CELL_BNDRY_VERTS` (lib.rs line 40). -/
def MAX_CELL_BNDRY_VERTS : Nat := 10

/-- `DEG_TO_RAD = PI / 180.0` (lib.rs line 35), with `π` passed as `piv`. -/
def DEG_TO_RAD {F : Type} [Field F] (piv : F) : F := piv / 180

/-- `RAD_TO_DEG = 180.0 / PI` (lib.rs line 36), with `π` passed as `piv`. -/
def RAD_TO_DEG {F : Type} [Field F] (piv : F) : F := 180 / piv

/-- `GeoBoundaryInternal { num_verts: i32, verts: [GeoCoordInternal; 10] }`
(lib.rs lines 330-333); the fixed-size array is a list whose length is
`MAX_CELL_BNDRY_VERTS` in every state the engine contract produces. -/
structure GeoBoundaryInternal (F : Type) where
  num_verts : Int
  verts : List (GeoCoordInternal F)

/-- `GeoBoundary { verts: Vec<GeoCoord> }` (lib.rs lines 354-356). -/
structure GeoBoundary (F : Type) where
  verts : List (GeoCoord F)

/-- The grid engine's function contract (the `extern "C"` block, lib.rs lines
12-33). `h3ToString` takes the caller-allocated byte buffer and returns its
contents after the engine wrote into it. -/
structure Engine (F : Type) where
  geoToH3 : GeoCoordInternal F → Int → Nat
  h3ToGeo : Nat → GeoCoordInternal F
  h3ToGeoBoundary : Nat → GeoBoundaryInternal F
  h3GetResolution : Nat → Int
  h3GetBaseCell : Nat → Int
  stringToH3 : List Char → Nat
  h3ToString : Nat → List Nat → List Nat
  h3IsValid : Nat → Int
  h3IsResClassIII : Nat → Int
  h3IsPentagon : Nat → Int
  h3Distance : Nat → Nat → Int
  h3ToParent : Nat → Int → Nat

/-- The error taxonomy `Error` (lib.rs lines 359-368). -/
inductive Error where
  | InvalidIndex (value : Nat)
  | InvalidString (value : List Char)
  | FailedConversion
  | IncompatibleIndexes (left right : H3Index)
  deriving DecidableEq, Repr

/-- `H3Index::new` (lib.rs lines 58-67): validate through `h3IsValid`, fail
with `InvalidIndex { value: h }` when the predicate returns zero. -/
def H3Index.new {F : Type} (E : Engine F) (h : Nat) : Except Error H3Index :=
  if E.h3IsValid h = 0 then Except.error (Error.InvalidIndex h)
  else Except.ok ⟨h⟩

/-- `H3Index::from_str` (lib.rs lines 82-103). `CString::new(s)` fails exactly
when `s` holds an embedded NUL byte; then the engine parses, and the zero
sentinel is an error. The success path wraps the parse result directly. -/
def H3Index.from_str {F : Type} (E : Engine F) (s : List Char) :
    Except Error H3Index :=
  if '\x00' ∈ s then Except.error (Error.InvalidString s)
  else
    let h := E.stringToH3 s
    if h = 0 then Except.error (Error.InvalidString s)
    else Except.ok ⟨h⟩

/-- `GeoCoordInternal::to_deg` (lib.rs lines 270-272). -/
def GeoCoordInternal.to_deg {F : Type} [Field F] (piv : F)
    (g : GeoCoordInternal F) : GeoCoord F :=
  ⟨g.lat * RAD_TO_DEG piv, g.lon * RAD_TO_DEG piv⟩

/-- `GeoCoordInternal::to_h3` (lib.rs lines 274-276): raw engine call, the
result wrapped unchecked (the caller checks the sentinel). -/
def GeoCoordInternal.to_h3 {F : Type} (E : Engine F) (g : GeoCoordInternal F)
    (res : Int) : H3Index :=
  ⟨E.geoToH3 g res⟩

/-- `GeoCoord::to_radians` (lib.rs lines 304-306). -/
def GeoCoord.to_radians {F : Type} [Field F] (piv : F) (c : GeoCoord F) :
    GeoCoordInternal F :=
  ⟨c.lat * DEG_TO_RAD piv, c.lon * DEG_TO_RAD piv⟩

/-- `GeoCoord::to_h3` (lib.rs lines 319-325): degrees to radians, engine
indexing call, zero sentinel becomes `FailedConversion`. -/
def GeoCoord.to_h3 {F : Type} [Field F] (E : Engine F) (piv : F)
    (c : GeoCoord F) (res : Int) : Except Error H3Index :=
  let index := (c.to_radians piv).to_h3 E res
  if index.value = 0 then Except.error Error.FailedConversion
  else Except.ok index

/-- `H3Index::to_geo` (lib.rs lines 116-122): engine centroid, converted to
degrees; no failure path. -/
def H3Index.to_geo {F : Type} [Field F] (E : Engine F) (piv : F)
    (i : H3Index) : GeoCoord F :=
  (E.h3ToGeo i.value).to_deg piv

/-- `GeoBoundaryInternal::convert` (lib.rs lines 343-349): copy the populated
prefix `0..num_verts`, converting each vertex to degrees. A negative
`num_verts` yields the empty loop, as in Rust. -/
def GeoBoundaryInternal.convert {F : Type} [Field F] (piv : F)
    (gb : GeoBoundaryInternal F) : GeoBoundary F :=
  ⟨(List.range gb.num_verts.toNat).map
    (fun i => (gb.verts.getD i ⟨0, 0⟩).to_deg piv)⟩

/-- `H3Index::to_geo_boundary` (lib.rs lines 131-137). -/
def H3Index.to_geo_boundary {F : Type} [Field F] (E : Engine F) (piv : F)
    (i : H3Index) : GeoBoundary F :=
  (E.h3ToGeoBoundary i.value).convert piv

/-- `H3Index::resolution` (lib.rs lines 150-152). -/
def H3Index.resolution {F : Type} (E : Engine F) (i : H3Index) : Int :=
  E.h3GetResolution i.value

/-- `H3Index::base_cell` (lib.rs lines 165-167). -/
def H3Index.base_cell {F : Type} (E : Engine F) (i : H3Index) : Int :=
  E.h3GetBaseCell i.value

/-- `H3Index::is_res_class_3` (lib.rs lines 180-182). -/
def H3Index.is_res_class_3 {F : Type} (E : Engine F) (i : H3Index) : Bool :=
  E.h3IsResClassIII i.value ≠ 0

/-- `H3Index::is_pentagon` (lib.rs lines 195-197). -/
def H3Index.is_pentagon {F : Type} (E : Engine F) (i : H3Index) : Bool :=
  E.h3IsPentagon i.value ≠ 0

/-- `H3Index::distance` (lib.rs lines 208-221): a negative engine result is
`IncompatibleIndexes { left: self, right: other }`. -/
def H3Index.distance {F : Type} (E : Engine F) (a b : H3Index) :
    Except Error Int :=
  let d := E.h3Distance a.value b.value
  if d < 0 then Except.error (Error.IncompatibleIndexes a b)
  else Except.ok d

/-- `H3Index::parent` (lib.rs lines 230-240): zero sentinel becomes
`FailedConversion`. -/
def H3Index.parent {F : Type} (E : Engine F) (i : H3Index) (res : Int) :
    Except Error H3Index :=
  let h := E.h3ToParent i.value res
  if h = 0 then Except.error Error.FailedConversion
  else Except.ok ⟨h⟩

/-- `str::trim_end_matches('\0')`: drop every trailing NUL character. -/
def trimEndNulls (s : List Char) : List Char :=
  (s.reverse.dropWhile (fun c => c = '\x00')).reverse

/-- `impl fmt::Display for H3Index` (lib.rs lines 243-256): allocate a 17-byte
zeroed buffer, let the engine format into it, decode as UTF-8, trim trailing
NUL padding; on decode failure substitute the fixed fallback literal. The
UTF-8 decoder of the Rust standard library is passed in as `dec`. -/
def H3Index.fmt {F : Type} (E : Engine F)
    (dec : List Nat → Option (List Char)) (i : H3Index) : List Char :=
  let buf := E.h3ToString i.value (List.replicate 17 0)
  match dec buf with
  | some s => trimEndNulls s
  | none => "<invalid>".toList

/-- The ordering `#[derive(PartialOrd, Ord)]` produces on the single-field
newtype `H3Index(u64)` (lib.rs line 43): unsigned comparison of the raw
values. -/
def H3Index.le (a b : H3Index) : Prop := a.value ≤ b.value

/-- A concrete engine over `ℚ`, used to instantiate theorems with hypotheses
at explicit inputs. Its validity predicate rejects the zero sentinel, as the
engine contract's use of `0` as failure sentinel dictates. -/
def qEngine : Engine ℚ :=
  ⟨fun _ _ => 0x850dab63fffffff,
   fun _ => ⟨0, 0⟩,
   fun _ => ⟨6, List.replicate 10 ⟨0, 0⟩⟩,
   fun _ => 5,
   fun _ => 6,
   fun _ => 0x850dab63fffffff,
   fun _ buf => buf,
   fun h => if h = 0 then 0 else 1,
   fun _ => 1,
   fun _ => 0,
   fun _ _ => 0,
   fun _ _ => 0x850dab63fffffff⟩

/-- A concrete boundary buffer state over `ℚ`. -/
def qBoundary : GeoBoundaryInternal ℚ := ⟨6, List.replicate 10 ⟨0, 0⟩⟩

/-- C2: `H3Index::new h` returns `Ok` wrapping exactly `h` iff the engine's
validity predicate accepts `h` (nonzero), and otherwise returns
`Err (InvalidIndex { value })` carrying exactly `h`; no other result shape is
possible. -/
theorem new_characterization {F : Type} (E : Engine F) (h : Nat) :
    (H3Index.new E h = Except.ok ⟨h⟩ ↔ E.h3IsValid h ≠ 0)
    ∧ (H3Index.new E h = Except.error (Error.InvalidIndex h) ↔
        E.h3IsValid h = 0)
    ∧ (∀ i, H3Index.new E h = Except.ok i → i = ⟨h⟩)
    ∧ (∀ e, H3Index.new E h = Except.error e → e = Error.InvalidIndex h) := by
  unfold H3Index.new
  by_cases hv : E.h3IsValid h = 0 <;> simp [hv]

/-- C3: `H3Index::from_str s` fails with `InvalidString` carrying `s` exactly
when `s` holds an embedded NUL or the engine's parse returns the zero
sentinel; otherwise it returns `Ok` wrapping the parse result directly, and
the outcome never consults the validity predicate (it depends on the engine
only through `stringToH3`). -/
theorem from_str_characterization {F : Type} (E : Engine F) (s : List Char) :
    (H3Index.from_str E s = Except.error (Error.InvalidString s) ↔
      ('\x00' ∈ s ∨ E.stringToH3 s = 0))
    ∧ (∀ e, H3Index.from_str E s = Except.error e → e = Error.InvalidString s)
    ∧ (¬ '\x00' ∈ s → E.stringToH3 s ≠ 0 →
        H3Index.from_str E s = Except.ok ⟨E.stringToH3 s⟩)
    ∧ (∀ E' : Engine F, E'.stringToH3 = E.stringToH3 →
        H3Index.from_str E' s = H3Index.from_str E s) := by
  refine ⟨?_, ?_, ?_, ?_⟩
  · unfold H3Index.from_str
    by_cases hn : '\x00' ∈ s <;> by_cases hz : E.stringToH3 s = 0 <;>
      simp [hn, hz]
  · intro e he
    unfold H3Index.from_str at he
    by_cases hn : '\x00' ∈ s <;> by_cases hz : E.stringToH3 s = 0 <;>
      simp [hn, hz] at he <;> simp [he]
  · intro hn hz
    unfold H3Index.from_str
    simp [hn, hz]
  · intro E' hE'
    unfold H3Index.from_str
    rw [hE']

/-- C4: `GeoCoord::to_h3` first converts the coordinate to radians and hands
it to the engine's indexing call; it and `H3Index::parent` fail with the
detail-free `FailedConversion` exactly when the respective engine call
returns the zero sentinel, and otherwise wrap the nonzero engine result. -/
theorem to_h3_parent_characterization {F : Type} [Field F] (E : Engine F)
    (piv : F) (c : GeoCoord F) (res pres : Int) (i : H3Index) :
    (GeoCoord.to_h3 E piv c res = Except.error Error.FailedConversion ↔
      E.geoToH3 (c.to_radians piv) res = 0)
    ∧ (E.geoToH3 (c.to_radians piv) res ≠ 0 →
        GeoCoord.to_h3 E piv c res =
          Except.ok ⟨E.geoToH3 (c.to_radians piv) res⟩)
    ∧ (∀ e, GeoCoord.to_h3 E piv c res = Except.error e →
        e = Error.FailedConversion)
    ∧ (H3Index.parent E i pres = Except.error Error.FailedConversion ↔
        E.h3ToParent i.value pres = 0)
    ∧ (E.h3ToParent i.value pres ≠ 0 →
        H3Index.parent E i pres = Except.ok ⟨E.h3ToParent i.value pres⟩)
    ∧ (∀ e, H3Index.parent E i pres = Except.error e →
        e = Error.FailedConversion) := by
  unfold GeoCoord.to_h3 H3Index.parent GeoCoordInternal.to_h3
  by_cases hg : E.geoToH3 (c.to_radians piv) res = 0 <;>
    by_cases hp : E.h3ToParent i.value pres = 0 <;>
      simp [hg, hp]

/-- C5: `H3Index::distance a b` returns `Ok` with the engine's grid-distance
result unchanged whenever that result is non-negative, and
`Err (IncompatibleIndexes { left, right })` with `left` the receiver `a` and
`right` the argument `b` exactly when the engine's result is negative; no
other outcome is possible. -/
theorem distance_characterization {F : Type} (E : Engine F) (a b : H3Index) :
    (H3Index.distance E a b =
        Except.error (Error.IncompatibleIndexes a b) ↔
      E.h3Distance a.value b.value < 0)
    ∧ (0 ≤ E.h3Distance a.value b.value →
        H3Index.distance E a b = Except.ok (E.h3Distance a.value b.value))
    ∧ (∀ d, H3Index.distance E a b = Except.ok d →
        d = E.h3Distance a.value b.value ∧ 0 ≤ d)
    ∧ (∀ e, H3Index.distance E a b = Except.error e →
        e = Error.IncompatibleIndexes a b) := by
  unfold H3Index.distance
  by_cases hd : E.h3Distance a.value b.value < 0 <;> simp [hd]
  all_goals omega

/-- C1: every successful construction path yields an index whose raw value
the engine attests valid (`new`) or which is a nonzero result of a successful
engine call (`from_str`, `to_h3`, `parent`); under the engine contract's
convention that zero is the failure sentinel (so the validity predicate
rejects it), no path ever wraps zero. -/
theorem construction_invariant {F : Type} [Field F] (E : Engine F) (piv : F)
    (hE : E.h3IsValid 0 = 0) :
    (∀ h i, H3Index.new E h = Except.ok i →
      E.h3IsValid i.value ≠ 0 ∧ i.value ≠ 0)
    ∧ (∀ s i, H3Index.from_str E s = Except.ok i →
        i.value = E.stringToH3 s ∧ i.value ≠ 0)
    ∧ (∀ c res i, GeoCoord.to_h3 E piv c res = Except.ok i →
        i.value = E.geoToH3 (c.to_radians piv) res ∧ i.value ≠ 0)
    ∧ (∀ p res i, H3Index.parent E p res = Except.ok i →
        i.value = E.h3ToParent p.value res ∧ i.value ≠ 0) := by
  refine ⟨?_, ?_, ?_, ?_⟩
  · intro h i hok
    unfold H3Index.new at hok
    by_cases hv : E.h3IsValid h = 0 <;> simp [hv] at hok
    subst hok
    refine ⟨hv, ?_⟩
    intro h0
    simp at h0
    subst h0
    exact hv hE
  · intro s i hok
    unfold H3Index.from_str at hok
    by_cases hn : '\x00' ∈ s <;> by_cases hz : E.stringToH3 s = 0 <;>
      simp [hn, hz] at hok
    subst hok
    exact ⟨rfl, hz⟩
  · intro c res i hok
    unfold GeoCoord.to_h3 GeoCoordInternal.to_h3 at hok
    by_cases hz : E.geoToH3 (c.to_radians piv) res = 0 <;>
      simp [hz] at hok
    subst hok
    exact ⟨rfl, hz⟩
  · intro p res i hok
    unfold H3Index.parent at hok
    by_cases hz : E.h3ToParent p.value res = 0 <;> simp [hz] at hok
    subst hok
    exact ⟨rfl, hz⟩

/-- C1 witness: the invariant instantiated at the concrete engine `qEngine`,
whose validity predicate rejects zero. -/
theorem construction_invariant_witness :
    qEngine.h3IsValid 0 = 0 ∧
    (∀ s i, H3Index.from_str qEngine s = Except.ok i →
      i.value = qEngine.stringToH3 s ∧ i.value ≠ 0) :=
  ⟨rfl, (construction_invariant qEngine (0 : ℚ) rfl).2.1⟩

/-- C6: `to_geo_boundary` copies exactly the engine-reported prefix: the
result has length `num_verts`, its `k`-th element is the `k`-th radian vertex
converted to degrees, and — given the engine contract's bounds
`0 ≤ num_verts ≤ 10 = length verts` — every access is in bounds and the
output depends only on the populated prefix (buffers agreeing below
`num_verts` convert identically, i.e. no slot at `num_verts` or beyond is
read). -/
theorem boundary_prefix_copy {F : Type} [Field F] (E : Engine F) (piv : F)
    (i : H3Index) (gb : GeoBoundaryInternal F)
    (hgb : E.h3ToGeoBoundary i.value = gb)
    (h0 : 0 ≤ gb.num_verts)
    (h10 : gb.num_verts ≤ (MAX_CELL_BNDRY_VERTS : Int))
    (hlen : gb.verts.length = MAX_CELL_BNDRY_VERTS) :
    (H3Index.to_geo_boundary E piv i).verts.length = gb.num_verts.toNat
    ∧ gb.num_verts.toNat ≤ gb.verts.length
    ∧ (∀ k v, k < gb.num_verts.toNat → gb.verts[k]? = some v →
        (H3Index.to_geo_boundary E piv i).verts[k]? = some (v.to_deg piv))
    ∧ (∀ gb' : GeoBoundaryInternal F, gb'.num_verts = gb.num_verts →
        gb'.verts.take gb.num_verts.toNat = gb.verts.take gb.num_verts.toNat →
        gb'.convert piv = gb.convert piv) := by
  refine ⟨?_, ?_, ?_, ?_⟩
  · simp [H3Index.to_geo_boundary, hgb, GeoBoundaryInternal.convert]
  · rw [hlen]
    unfold MAX_CELL_BNDRY_VERTS at h10 ⊢
    omega
  · intro k v hk hv
    unfold H3Index.to_geo_boundary
    rw [hgb]
    unfold GeoBoundaryInternal.convert
    rw [List.getElem?_map]
    simp [List.getElem?_range, hk, List.getD_eq_getElem?_getD, hv]
  · intro gb' hnum htake
    unfold GeoBoundaryInternal.convert
    rw [hnum]
    congr 1
    apply List.map_congr_left
    intro k hk
    rw [List.mem_range] at hk
    have h1 : gb'.verts[k]? = gb.verts[k]? := by
      have h2 := congrArg (fun l => l[k]?) htake
      simpa [List.getElem?_take_of_lt hk] using h2
    rw [List.getD_eq_getElem?_getD, List.getD_eq_getElem?_getD, h1]

/-- C6 witness: the prefix-copy behaviour at a concrete engine whose boundary
buffer reports 6 vertices in a 10-slot array. -/
theorem boundary_prefix_copy_witness :
    (H3Index.to_geo_boundary qEngine (3 : ℚ) ⟨1⟩).verts.length =
      (qBoundary.num_verts).toNat :=
  (boundary_prefix_copy qEngine 3 ⟨1⟩ qBoundary rfl (by decide) (by decide)
    (by simp [qBoundary, MAX_CELL_BNDRY_VERTS])).1

/-- C7: `to_geo` has no failure path — it is a total function into
coordinates — and returns the engine's radian centroid with each component
multiplied by `180 / π`. -/
theorem to_geo_total {F : Type} [Field F] (E : Engine F) (piv : F)
    (i : H3Index) :
    H3Index.to_geo E piv i = (E.h3ToGeo i.value).to_deg piv
    ∧ (H3Index.to_geo E piv i).lat = (E.h3ToGeo i.value).lat * (180 / piv)
    ∧ (H3Index.to_geo E piv i).lon = (E.h3ToGeo i.value).lon * (180 / piv) :=
  ⟨rfl, rfl, rfl⟩

/-- C8: the display form is total and never propagates a decode error: on the
engine's formatted 17-byte buffer it yields the decoded text with trailing
NUL padding trimmed, and when decoding fails it yields the fixed fallback
literal instead. -/
theorem fmt_total {F : Type} (E : Engine F)
    (dec : List Nat → Option (List Char)) (i : H3Index) :
    (∀ s, dec (E.h3ToString i.value (List.replicate 17 0)) = some s →
        H3Index.fmt E dec i = trimEndNulls s)
    ∧ (dec (E.h3ToString i.value (List.replicate 17 0)) = none →
        H3Index.fmt E dec i = "<invalid>".toList) := by
  constructor
  · intro s hs
    unfold H3Index.fmt
    simp only [hs]
  · intro hn
    unfold H3Index.fmt
    simp only [hn]

/-- C9: degree/radian conversion is pure componentwise arithmetic
(multiplication by `π / 180` and `180 / π`, no validation), and the
degrees→radians→degrees round trip is the identity in the idealised (exact)
arithmetic model of `f64`. -/
theorem conversions_inverse {F : Type} [Field F] [CharZero F] (piv : F)
    (hpi : piv ≠ 0) (c : GeoCoord F) (g : GeoCoordInternal F) :
    GeoCoord.to_radians piv c = ⟨c.lat * (piv / 180), c.lon * (piv / 180)⟩
    ∧ GeoCoordInternal.to_deg piv g =
        ⟨g.lat * (180 / piv), g.lon * (180 / piv)⟩
    ∧ (c.to_radians piv).to_deg piv = c := by
  refine ⟨rfl, rfl, ?_⟩
  have h180 : (180 : F) ≠ 0 := by norm_num
  cases c with
  | mk lat lon =>
    simp only [GeoCoord.to_radians, GeoCoordInternal.to_deg, DEG_TO_RAD,
      RAD_TO_DEG, GeoCoord.mk.injEq]
    constructor <;> field_simp

/-- C9 witness: the round trip at the concrete coordinate `(1, 2)` with
`π` taken as the nonzero rational `3`. -/
theorem conversions_inverse_witness :
    (3 : ℚ) ≠ 0 ∧
    ((GeoCoord.mk (1 : ℚ) 2).to_radians 3).to_deg 3 = GeoCoord.mk (1 : ℚ) 2 :=
  ⟨by norm_num,
   (conversions_inverse (3 : ℚ) (by norm_num) ⟨1, 2⟩ ⟨0, 0⟩).2.2⟩

/-- C10: equality of indexes coincides with equality of the wrapped raw
values, the derived ordering coincides with unsigned ordering of the raw
values, and that ordering is total and antisymmetric (a total order on the
bit pattern, not a spatial relation). -/
theorem index_order_raw (a b : H3Index) :
    (a = b ↔ a.value = b.value)
    ∧ (H3Index.le a b ↔ a.value ≤ b.value)
    ∧ (H3Index.le a b ∨ H3Index.le b a)
    ∧ (H3Index.le a b → H3Index.le b a → a = b) := by
  refine ⟨?_, Iff.rfl, ?_, ?_⟩
  · cases a with
    | mk x =>
      cases b with
      | mk y => simp
  · unfold H3Index.le
    exact Nat.le_total a.value b.value
  · intro h1 h2
    unfold H3Index.le at h1 h2
    cases a with
    | mk x =>
      cases b with
      | mk y =>
        have hxy : x = y := Nat.le_antisymm h1 h2
        simp [hxy]

end H3rs
